import Mathlib

/-
  Verification of the Toka analysis-tools specification against a shallow
  embedding of `toka_analysis_tools/control_flow.py` and
  `toka_analysis_tools/dependency_graph.py`.

  Text handling: the Python code inspects lines with `str.strip`, `str.lower`,
  `str.startswith` and the substring operator `in`; those operations are
  embedded below as executable functions over `List Char` / `String`.
  A file's content, which the Python code immediately splits with
  `content.split('\n')`, is modelled as the resulting list of lines.
-/

namespace Toka

/-! ## String primitives (Python `str` operations used by the analyzers) -/

/-- `leadsWithL pat s` : does `s` start with `pat` (Python `str.startswith`). -/
def leadsWithL : List Char → List Char → Bool
  | [], _ => true
  | _ :: _, [] => false
  | a :: as, b :: bs => a == b && leadsWithL as bs

/-- `containsSubL pat s` : does `pat` occur as a contiguous substring of `s`
(Python `pat in s`). -/
def containsSubL (pat : List Char) : List Char → Bool
  | [] => leadsWithL pat []
  | c :: cs => leadsWithL pat (c :: cs) || containsSubL pat cs

/-- Python `pat in s` on strings. -/
def containsSub (s pat : String) : Bool := containsSubL pat.data s.data

/-- Python `s.startswith(pat)`. -/
def startsWithStr (s pat : String) : Bool := leadsWithL pat.data s.data

/-- Python `s.lower()` (ASCII). -/
def strLower (s : String) : String := String.mk (s.data.map Char.toLower)

/-- Python `s.strip()`: remove leading and trailing whitespace. -/
def stripL (s : List Char) : List Char :=
  ((s.dropWhile Char.isWhitespace).reverse.dropWhile Char.isWhitespace).reverse

/-- Python `s.strip()` on `String`. -/
def strip (s : String) : String := String.mk (stripL s.data)

/-- The character `\x7b` (opening curly brace). -/
def openBraceChar : Char := '\x7b'

/-- The character `\x7d` (closing curly brace). -/
def closeBraceChar : Char := '\x7d'

/-! ## Control-flow data model (`control_flow.py`, dataclasses) -/

/-- `FlowNodeType` enum of `control_flow.py`. -/
inductive FlowNodeType where
  | ENTRY | EXIT | STATEMENT | CONDITION | LOOP | ASYNC_POINT
  | ERROR_HANDLER | STATE_TRANSITION | FUNCTION_CALL
  | AWAIT_POINT | SPAWN_POINT | RETURN_POINT
deriving DecidableEq, Repr

/-- The `.value` strings of the `FlowNodeType` Python enum. -/
def FlowNodeType.value : FlowNodeType → String
  | .ENTRY => "entry"
  | .EXIT => "exit"
  | .STATEMENT => "statement"
  | .CONDITION => "condition"
  | .LOOP => "loop"
  | .ASYNC_POINT => "async_point"
  | .ERROR_HANDLER => "error_handler"
  | .STATE_TRANSITION => "state_transition"
  | .FUNCTION_CALL => "function_call"
  | .AWAIT_POINT => "await_point"
  | .SPAWN_POINT => "spawn_point"
  | .RETURN_POINT => "return_point"

/-- Node identifiers.  The source uses the strings `f"{name}_entry"`,
`f"{name}_{i}"` (with `i` the line index) and `f"{name}_exit"`; within one
function all of these are pairwise distinct (decimal digit strings never
equal `"entry"` or `"exit"`), so they are embedded as this inductive type;
`NodeId.render` recovers the source's strings. -/
inductive NodeId where
  | entry : NodeId
  | line : Nat → NodeId
  | exit : NodeId
deriving DecidableEq, Repr

/-- The string the source would use for a `NodeId` of function `name`. -/
def NodeId.render (name : String) : NodeId → String
  | .entry => name ++ "_entry"
  | .line i => name ++ "_" ++ toString i
  | .exit => name ++ "_exit"

/-- `FlowNode` dataclass (the `metadata` dict, always empty in the analyzed
code paths, and the `execution_pattern`, never set, are omitted). -/
structure FlowNode where
  id : NodeId
  node_type : FlowNodeType
  label : String
  source_line : Option Nat := none
  source_file : Option String := none
deriving DecidableEq, Repr

/-- `FlowEdge` dataclass (the float field `probability`, never set, is
omitted). -/
structure FlowEdge where
  source : NodeId
  target : NodeId
  label : Option String := none
  condition : Option String := none
  edge_type : String := "control"
deriving DecidableEq, Repr

/-- The `complexity_metrics` dict filled by `_compute_complexity_metrics`. -/
structure ComplexityMetrics where
  cyclomatic_complexity : Nat := 0
  async_complexity : Nat := 0
  error_handling_complexity : Nat := 0
  total_nodes : Nat := 0
  total_edges : Nat := 0
deriving DecidableEq, Repr

/-- `FunctionFlow` dataclass.  The insertion-ordered dict `nodes` is an
association list in insertion order; `error_paths`, `async_spawn_points` and
`state_transitions` (never filled by the analyzer) are omitted. -/
structure FunctionFlow where
  name : String
  file_path : String
  start_line : Nat
  end_line : Nat
  nodes : List (NodeId × FlowNode) := []
  edges : List FlowEdge := []
  async_function : Bool := false
  return_type : Option String := none
  complexity_metrics : ComplexityMetrics := {}
deriving DecidableEq, Repr

/-! ## Line classification (`ControlFlowAnalyzer._classify_line`) -/

/-- `_classify_line`: classify one stripped line of code into a node type,
first matching rule wins. -/
def classify_line (line : String) : FlowNodeType :=
  if containsSub line ".await" then .AWAIT_POINT
  else if containsSub line "tokio::spawn" || containsSub line "std::thread::spawn" then .SPAWN_POINT
  else if containsSub line "return" then .RETURN_POINT
  else if startsWithStr line "if " || startsWithStr line "match " then .CONDITION
  else if startsWithStr line "for " || startsWithStr line "while " || startsWithStr line "loop" then .LOOP
  else if containsSub (strLower line) "state" && (containsSub line "=" || containsSub line "transition") then .STATE_TRANSITION
  else if containsSub line "?" || containsSub line ".map_err" || containsSub line "unwrap" then .ERROR_HANDLER
  else if containsSub line "(" && !(startsWithStr line "//") then .FUNCTION_CALL
  else .STATEMENT

/-! ## CFG construction (`ControlFlowAnalyzer._build_function_cfg`) -/

/-- Label truncation `line_stripped[:50] + "..." if len(line_stripped) > 50
else line_stripped`. -/
def truncLabel (ls : String) : String :=
  if ls.data.length > 50 then String.mk (ls.data.take 50) ++ "..." else ls

/-- The loop body's edge-type upgrade: `edge_type`/`edge_label` start as
`"control"`/`None` and are overwritten by the first matching rule. -/
def edgeUpgrade (ls : String) : String × Option String :=
  if containsSub ls ".await" then ("async", some "await")
  else if containsSub ls "?" then ("error", some "error propagation")
  else if containsSub ls "match" || containsSub ls "if" then ("control", some "conditional")
  else ("control", none)

/-- `if not line_stripped or line_stripped.startswith('//'): continue`. -/
def skipLine (ls : String) : Bool := ls.data.isEmpty || startsWithStr ls "//"

/-- Mutable state of the line loop in `_build_function_cfg`: nodes inserted
so far (in dict insertion order), edges appended so far, and
`current_node_id`. -/
structure CfgState where
  nodes : List (NodeId × FlowNode)
  edges : List FlowEdge
  current : NodeId
deriving Repr

/-- One iteration of the `for i, line in enumerate(lines)` loop of
`_build_function_cfg`. -/
def processLine (file : String) (startLine i : Nat) (rawLine : String)
    (st : CfgState) : CfgState :=
  let ls := strip rawLine
  if skipLine ls then st
  else
    let nid := NodeId.line i
    let node : FlowNode :=
      { id := nid, node_type := classify_line ls, label := truncLabel ls,
        source_line := some (startLine + i), source_file := some file }
    let edges :=
      if st.current ≠ nid then
        let u := edgeUpgrade ls
        st.edges ++ [{ source := st.current, target := nid, label := u.2,
                       condition := none, edge_type := u.1 }]
      else st.edges
    { nodes := st.nodes ++ [(nid, node)], edges := edges, current := nid }

/-- The whole `enumerate(lines)` loop. -/
def cfg_lines (file : String) (startLine : Nat) :
    Nat → List String → CfgState → CfgState
  | _, [], st => st
  | i, l :: rest, st =>
      cfg_lines file startLine (i + 1) rest (processLine file startLine i l st)

/-- `_build_function_cfg`: entry node, one node per non-blank non-comment
line with a control edge from the previous node, then the exit node linked
from the last node.  `sourceLines` is `source.split('\n')`. -/
def build_function_cfg (name file : String) (startLine endLine : Nat)
    (sourceLines : List String) : FunctionFlow :=
  let entryNode : FlowNode :=
    { id := .entry, node_type := .ENTRY, label := "Entry: " ++ name,
      source_line := some startLine, source_file := some file }
  let st0 : CfgState := { nodes := [(NodeId.entry, entryNode)], edges := [], current := .entry }
  let st := cfg_lines file startLine 0 sourceLines st0
  let exitNode : FlowNode :=
    { id := .exit, node_type := .EXIT, label := "Exit: " ++ name,
      source_line := some endLine, source_file := some file }
  let edges :=
    if st.current ≠ NodeId.exit then
      st.edges ++ [{ source := st.current, target := NodeId.exit, label := none,
                     condition := none, edge_type := "control" }]
    else st.edges
  { name := name, file_path := file, start_line := startLine, end_line := endLine,
    nodes := st.nodes ++ [(NodeId.exit, exitNode)], edges := edges }

/-! ## Complexity metrics (`ControlFlowAnalyzer._compute_complexity_metrics`) -/

/-- `_compute_complexity_metrics` for one `FunctionFlow` (the source loops
over all flows and stores this record on each). -/
def compute_complexity_metrics (ff : FunctionFlow) : ComplexityMetrics :=
  let decision_nodes :=
    ff.nodes.countP (fun p => [FlowNodeType.CONDITION, FlowNodeType.LOOP].contains p.2.node_type)
  let async_points :=
    ff.nodes.countP (fun p => [FlowNodeType.AWAIT_POINT, FlowNodeType.SPAWN_POINT].contains p.2.node_type)
  let error_points :=
    ff.nodes.countP (fun p => p.2.node_type == FlowNodeType.ERROR_HANDLER)
  { cyclomatic_complexity := decision_nodes + 1
    async_complexity := async_points
    error_handling_complexity := error_points
    total_nodes := ff.nodes.length
    total_edges := ff.edges.length }

/-! ## Async-pattern classification (`_classify_async_pattern`) -/

/-- `_classify_async_pattern(await_points, spawn_points)`: Python truthiness
of a list is non-emptiness. -/
def classify_async_pattern (await_points spawn_points : List NodeId) : String :=
  if spawn_points ≠ [] ∧ await_points ≠ [] then "spawn_and_await"
  else if spawn_points ≠ [] then "fire_and_forget"
  else if await_points.length > 3 then "sequential_async"
  else if await_points ≠ [] then "simple_async"
  else "sync_in_async"

/-- Modelled from the spec: the exact rule table of §4.6, read off the spec's
words as a function of `(spawn_count, await_count)` for comparison with the
source's `classify_async_pattern`. -/
def spec_async_pattern (spawn_count await_count : Nat) : String :=
  if 0 < spawn_count ∧ 0 < await_count then "spawn_and_await"
  else if 0 < spawn_count ∧ await_count = 0 then "fire_and_forget"
  else if spawn_count = 0 ∧ 3 < await_count then "sequential_async"
  else if spawn_count = 0 ∧ 1 ≤ await_count ∧ await_count ≤ 3 then "simple_async"
  else "sync_in_async"

/-! ## Function extraction (`ControlFlowAnalyzer._extract_functions`) -/

/-- A `\w` character of the signature regex (ASCII). -/
def is_word_char (c : Char) : Bool := c.isAlphanum || c == '_'

/-- Consume an optional regex group `(kw\s+)?`: the keyword followed by at
least one whitespace character, then any further whitespace. -/
def strip_opt_kw (kw : List Char) (cs : List Char) : List Char :=
  if leadsWithL kw cs then
    match cs.drop kw.length with
    | c :: rest =>
        if c.isWhitespace then rest.dropWhile Char.isWhitespace else cs
    | [] => cs
  else cs

/-- `re.match(r'\s*(pub\s+)?(async\s+)?fn\s+(\w+)\s*\(', line)`, returning
the captured function name (group 3) when the line matches. -/
def match_fn_sig (line : String) : Option String :=
  let cs := line.data.dropWhile Char.isWhitespace
  let cs := strip_opt_kw "pub".data cs
  let cs := strip_opt_kw "async".data cs
  if leadsWithL "fn".data cs then
    match cs.drop 2 with
    | c :: rest =>
        if c.isWhitespace then
          let rest := rest.dropWhile Char.isWhitespace
          let name := rest.takeWhile is_word_char
          if name.isEmpty then none
          else
            match (rest.dropWhile is_word_char).dropWhile Char.isWhitespace with
            | d :: _ => if d == '(' then some (String.mk name) else none
            | [] => none
        else none
    | [] => none
  else none

/-- The inner `for j in range(i, len(lines))` brace scan of
`_extract_functions`: starting at line index `j` with running brace count
`count`, return `some (j+1)` for the first line containing a closing brace
that brings the count to zero (the count check only runs on lines containing
a closing brace, exactly as in the source); `none` when the scan falls off
the end of the file. -/
def scan_braces : List String → Nat → Int → Option Nat
  | [], _, _ => none
  | l :: ls, j, count =>
      let count := count + (l.data.count openBraceChar : Int)
      if l.data.count closeBraceChar > 0 then
        let count := count - (l.data.count closeBraceChar : Int)
        if count == 0 then some (j + 1)
        else scan_braces ls (j + 1) count
      else scan_braces ls (j + 1) count

/-- The `for i, line in enumerate(lines)` loop of `_extract_functions`:
each signature match yields a fresh `FunctionFlow` whose `end_line` is the
balancing line, or stays at `start_line` when no balancing close is found
(`end_line = start_line` is the initialization the loop never overwrites). -/
def extract_functions_aux (allLines : List String) (file_path : String) :
    Nat → List String → List FunctionFlow
  | _, [] => []
  | i, line :: rest =>
      match match_fn_sig line with
      | none => extract_functions_aux allLines file_path (i + 1) rest
      | some fname =>
          let startLine := i + 1
          let endLine :=
            match scan_braces (allLines.drop i) i 0 with
            | some e => e
            | none => startLine
          { name := fname, file_path := file_path,
            start_line := startLine, end_line := endLine } ::
            extract_functions_aux allLines file_path (i + 1) rest

/-- `_extract_functions(content, file_path)`; `lines` is
`content.split('\n')`. -/
def extract_functions (lines : List String) (file_path : String) : List FunctionFlow :=
  extract_functions_aux lines file_path 0 lines

/-! ## JSON export (`ControlFlowVisualizer.export_function_json`) -/

/-- One entry of the exported `"nodes"` list. -/
structure NodeExport where
  id : NodeId
  type : String
  label : String
  source_line : Option Nat
  source_file : Option String
deriving DecidableEq, Repr

/-- One entry of the exported `"edges"` list. -/
structure EdgeExport where
  source : NodeId
  target : NodeId
  label : Option String
  condition : Option String
  edge_type : String
deriving DecidableEq, Repr

/-- The structured interchange object of `export_function_json` (the
narrative `analysis_summary` string and the never-populated `patterns`
lists are omitted; file writing is the excluded layer). -/
structure FunctionJsonExport where
  function_name : String
  file_path : String
  start_line : Nat
  end_line : Nat
  is_async : Bool
  return_type : Option String
  complexity_metrics : ComplexityMetrics
  nodes : List NodeExport
  edges : List EdgeExport
deriving DecidableEq, Repr

/-- `export_function_json`: nodes are emitted by iterating
`func_flow.nodes.items()` (dict insertion order) and edges by iterating the
edge list in order — no sorting happens anywhere in the source. -/
def export_function_json (ff : FunctionFlow) : FunctionJsonExport :=
  { function_name := ff.name
    file_path := ff.file_path
    start_line := ff.start_line
    end_line := ff.end_line
    is_async := ff.async_function
    return_type := ff.return_type
    complexity_metrics := ff.complexity_metrics
    nodes := ff.nodes.map (fun p =>
      { id := p.1, type := p.2.node_type.value, label := p.2.label,
        source_line := p.2.source_line, source_file := p.2.source_file })
    edges := ff.edges.map (fun e =>
      { source := e.source, target := e.target, label := e.label,
        condition := e.condition, edge_type := e.edge_type }) }

/-! ## Dependency analysis (`dependency_graph.py`) -/

/-- A dependency entry written as a TOML table: whether it has a `path` key
and its optional `version` key. -/
structure DepTable where
  hasPath : Bool
  version : Option String
deriving DecidableEq, Repr

/-- One declared dependency value: either a TOML table or a plain version
string. -/
inductive DepSpec where
  | table : DepTable → DepSpec
  | plain : String → DepSpec
deriving DecidableEq, Repr

/-- Does this entry reference another module by local path (the
`'path' in dep_info` test of `_analyze_single_crate`)? -/
def is_workspace_dep : DepSpec → Bool
  | .table t => t.hasPath
  | .plain _ => false

/-- The dependency-partition loop of `_analyze_single_crate`: returns
`(workspace_dependencies, external_dependencies, dependencies)` where the
first two model the Python sets and the third models the
name → declared-version dict. -/
def partition_deps : List (String × DepSpec) →
    List String × List String × List (String × String)
  | [] => ([], [], [])
  | (dep_name, .table t) :: rest =>
      let r := partition_deps rest
      if t.hasPath then
        (dep_name :: r.1, r.2.1, (dep_name, t.version.getD "path") :: r.2.2)
      else
        (r.1, dep_name :: r.2.1, (dep_name, t.version.getD "workspace") :: r.2.2)
  | (dep_name, .plain v) :: rest =>
      let r := partition_deps rest
      (r.1, dep_name :: r.2.1, (dep_name, v) :: r.2.2)

/-- The `[workspace]` manifest (`Cargo.toml` at the workspace root):
member paths and the optional `workspace.package.version`. -/
structure WorkspaceManifest where
  members : List String := []
  package_version : Option String := none
deriving DecidableEq, Repr

/-- One member crate's parsed `Cargo.toml`. -/
structure CrateManifest where
  package_name : Option String := none
  package_version : Option String := none
  package_description : Option String := none
  dir_name : String := ""
  dependencies : List (String × DepSpec) := []
  dev_dependencies : List (String × DepSpec) := []
deriving DecidableEq, Repr

/-- `CrateInfo` dataclass (the `path` string is omitted). -/
structure CrateInfo where
  name : String
  version : String
  description : String
  category : String
  dependencies : List (String × String) := []
  dev_dependencies : List (String × String) := []
  workspace_dependencies : List String := []
  external_dependencies : List String := []
deriving DecidableEq, Repr

set_option linter.unusedVariables false in
/-- `_categorize_crate(name, description)`: the fixed ordered keyword table,
first match winning.  (Note: the source lowers the description into
`desc_lower` but never consults it.) -/
def categorize_crate (name description : String) : String :=
  let name_lower := strLower name
  let desc_lower := strLower description
  if containsSub name_lower "store" || containsSub name_lower "storage" then "storage"
  else if containsSub name_lower "auth" || containsSub name_lower "security" then "security"
  else if containsSub name_lower "kernel" || containsSub name_lower "core" then "core"
  else if containsSub name_lower "runtime" || containsSub name_lower "agent" then "runtime"
  else if containsSub name_lower "cli" || containsSub name_lower "tools" then "tools"
  else if containsSub name_lower "llm" || containsSub name_lower "gateway" then "llm"
  else if containsSub name_lower "raft" then "consensus"
  else if containsSub name_lower "orchestration" then "orchestration"
  else if containsSub name_lower "bus" then "messaging"
  else "general"

/-- The dev-dependency parsing loop of `_analyze_single_crate` (values
only fill the `dev_dependencies` dict; they are never partitioned). -/
def parse_dev_deps : List (String × DepSpec) → List (String × String)
  | [] => []
  | (dep_name, .table t) :: rest =>
      (dep_name, t.version.getD (if t.hasPath then "path" else "workspace")) :: parse_dev_deps rest
  | (dep_name, .plain v) :: rest =>
      (dep_name, v) :: parse_dev_deps rest

/-- The body of `_analyze_single_crate` once the crate's `Cargo.toml` has
been read and parsed into `m`; `wm` is `self.workspace_manifest`. -/
def analyze_crate_manifest (wm : Option WorkspaceManifest) (m : CrateManifest) : CrateInfo :=
  let name := m.package_name.getD m.dir_name
  let workspace_version :=
    match wm with
    | some w => w.package_version.getD "0.0.0"
    | none => "0.0.0"
  let version := m.package_version.getD workspace_version
  let description := m.package_description.getD ""
  let category := categorize_crate name description
  let r := partition_deps m.dependencies
  { name := name, version := version, description := description,
    category := category, dependencies := r.2.2,
    dev_dependencies := parse_dev_deps m.dev_dependencies,
    workspace_dependencies := r.1, external_dependencies := r.2.1 }

/-- `_analyze_single_crate`: a missing member `Cargo.toml` yields `None`
(the member is skipped) instead of an error. -/
def analyze_single_crate (wm : Option WorkspaceManifest) :
    Option CrateManifest → Option CrateInfo
  | none => none
  | some m => some (analyze_crate_manifest wm m)

/-- `_build_dependency_graph` with the set of workspace-crate names made
explicit: for each crate, each workspace dependency that is itself a key of
`self.crates` is added; a graph key is only created when at least one such
dependency exists (`defaultdict` subscripting happens inside the guarded
loop body). -/
def build_dep_graph_aux (names : List String) :
    List (String × CrateInfo) → List (String × List String)
  | [] => []
  | c :: rest =>
      let deps := c.2.workspace_dependencies.filter (fun d => names.contains d)
      if deps.isEmpty then build_dep_graph_aux names rest
      else (c.1, deps) :: build_dep_graph_aux names rest

/-- `_build_dependency_graph` over the merged `self.crates` map (an
association list keyed by crate name). -/
def build_dependency_graph (crates : List (String × CrateInfo)) :
    List (String × List String) :=
  build_dep_graph_aux (crates.map Prod.fst) crates

/-- `_load_workspace_manifest`: a missing workspace-root `Cargo.toml`
raises `FileNotFoundError`, which `analyze_workspace` does not catch. -/
def load_workspace_manifest (root : Option WorkspaceManifest) :
    Except String WorkspaceManifest :=
  match root with
  | some m => Except.ok m
  | none => Except.error "Workspace Cargo.toml not found"

/-- The file-system snapshot the dependency run reads: the optional
workspace-root manifest and, per member path, the member's optional
manifest (`none` = the member's `Cargo.toml` does not exist). -/
structure WorkspaceFs where
  root_manifest : Option WorkspaceManifest
  member_manifests : List (Option CrateManifest)

/-- `Except.isOk`. -/
def except_is_ok {ε α : Type} : Except ε α → Bool
  | .ok _ => true
  | .error _ => false

/-- The dependency-analysis pipeline of `analyze_workspace`
(`dependency_graph.py`): load the root manifest (propagating its error),
analyze every member crate skipping the missing ones, merge by name, and
build the dependency graph. -/
def analyze_workspace_deps (fs : WorkspaceFs) :
    Except String (List CrateInfo × List (String × List String)) :=
  match load_workspace_manifest fs.root_manifest with
  | .error e => .error e
  | .ok wm =>
      let crates := fs.member_manifests.filterMap (analyze_single_crate (some wm))
      .ok (crates, build_dependency_graph (crates.map (fun c => (c.name, c))))

/-! ## Auxiliary notions used to state the graph-shape claims -/

/-- The `(source, target)` pair of every edge, in edge-list order. -/
def edgePairs (es : List FlowEdge) : List (NodeId × NodeId) :=
  es.map (fun e => (e.source, e.target))

/-- The consecutive pairs of a list: `adjPairs [a, b, c] = [(a, b), (b, c)]`.
A CFG whose edge pairs are exactly `adjPairs` of its node-id list is a
single linear chain. -/
def adjPairs : List NodeId → List (NodeId × NodeId)
  | [] => []
  | [_] => []
  | a :: b :: rest => (a, b) :: adjPairs (b :: rest)

/-- Invariant of the line loop of `_build_function_cfg` after processing
all line indices below `i`: the node keys are the entry id followed by
strictly increasing line ids below `i`; `current_node_id` is the most
recently inserted key; the edges connect consecutive inserted nodes; node
types tie ENTRY to the entry id and never use EXIT. -/
def CfgInv (i : Nat) (st : CfgState) : Prop :=
  (∃ js : List Nat, js.Pairwise (· < ·) ∧ (∀ j ∈ js, j < i) ∧
      st.nodes.map Prod.fst = NodeId.entry :: js.map NodeId.line)
  ∧ (∃ pre, st.nodes.map Prod.fst = pre ++ [st.current])
  ∧ edgePairs st.edges = adjPairs (st.nodes.map Prod.fst)
  ∧ ∀ p ∈ st.nodes, (p.1 = NodeId.entry → p.2.node_type = FlowNodeType.ENTRY)
      ∧ (p.1 ≠ NodeId.entry →
          p.2.node_type ≠ FlowNodeType.ENTRY ∧ p.2.node_type ≠ FlowNodeType.EXIT)

/-! ## Concrete inputs used by counterexamples and witnesses -/

/-- A two-line file whose single function signature is never brace-balanced:
`fn foo() \x7b` followed by `let x = 1;` and no closing brace. -/
def c6_file : List String := ["fn foo() \x7b", "let x = 1;"]

/-- A statement node used by the export-order counterexample. -/
def c7_nodeA : FlowNode :=
  { id := .line 0, node_type := .STATEMENT, label := "let a = 1;",
    source_line := some 1, source_file := some "demo.rs" }

/-- A second statement node used by the export-order counterexample. -/
def c7_nodeB : FlowNode :=
  { id := .line 1, node_type := .STATEMENT, label := "let b = 2;",
    source_line := some 2, source_file := some "demo.rs" }

/-- A `FunctionFlow` holding the two nodes in one insertion order. -/
def c7_flow1 : FunctionFlow :=
  { name := "g", file_path := "demo.rs", start_line := 1, end_line := 2,
    nodes := [(.line 0, c7_nodeA), (.line 1, c7_nodeB)], edges := [] }

/-- The same `FunctionFlow` up to node-map insertion order. -/
def c7_flow2 : FunctionFlow :=
  { name := "g", file_path := "demo.rs", start_line := 1, end_line := 2,
    nodes := [(.line 1, c7_nodeB), (.line 0, c7_nodeA)], edges := [] }

/-- The spec §8 example manifest: dependencies `{"a": path-local, "b": "1.0"}`. -/
def c4_manifest : CrateManifest :=
  { package_name := some "demo-crate", package_version := some "0.1.0",
    package_description := some "example", dir_name := "demo-crate",
    dependencies := [("a", .table { hasPath := true, version := none }),
                     ("b", .plain "1.0")],
    dev_dependencies := [] }

/-! ## Helper lemmas -/

/-- Membership of a node type in a two-element list, as the source's
`node.node_type in [t1, t2]` test, rewritten with `==`. -/
theorem contains_pair_eq (a b t : FlowNodeType) :
    ([a, b].contains t) = (t == a || t == b) := by
  simp only [List.contains, List.elem_eq_mem, List.mem_cons, List.not_mem_nil,
    or_false, Bool.decide_or]
  rfl

/-- `_classify_line` never returns ENTRY. -/
theorem classify_line_ne_entry (l : String) :
    classify_line l ≠ FlowNodeType.ENTRY := by
  unfold classify_line
  repeat' split
  all_goals decide

/-- `_classify_line` never returns EXIT. -/
theorem classify_line_ne_exit (l : String) :
    classify_line l ≠ FlowNodeType.EXIT := by
  unfold classify_line
  repeat' split
  all_goals decide

/-- Appending one element to a chain extends its consecutive pairs by the
pair from the old last element. -/
theorem adjPairs_append_pair (l : List NodeId) (c n : NodeId) :
    adjPairs (l ++ [c, n]) = adjPairs (l ++ [c]) ++ [(c, n)] := by
  induction l with
  | nil => rfl
  | cons a l ih =>
    cases l with
    | nil => rfl
    | cons b l' =>
      simp only [List.cons_append, adjPairs] at ih ⊢
      exact congrArg (List.cons (a, b)) ih

/-- The second components of the consecutive pairs are the list's tail. -/
theorem adjPairs_map_snd (l : List NodeId) :
    (adjPairs l).map Prod.snd = l.tail := by
  induction l with
  | nil => rfl
  | cons a l ih =>
    cases l with
    | nil => rfl
    | cons b l' =>
      simp only [adjPairs, List.map_cons, List.tail_cons] at ih ⊢
      rw [ih]

/-- The first components of the consecutive pairs are the list without its
last element. -/
theorem adjPairs_map_fst (l : List NodeId) :
    (adjPairs l).map Prod.fst = l.dropLast := by
  induction l with
  | nil => rfl
  | cons a l ih =>
    cases l with
    | nil => rfl
    | cons b l' =>
      simp only [adjPairs, List.map_cons, List.dropLast_cons₂] at ih ⊢
      rw [ih]

/-- A nonempty chain of `n + 1` nodes has `n` consecutive pairs. -/
theorem adjPairs_length_cons (a : NodeId) (l : List NodeId) :
    (adjPairs (a :: l)).length = l.length := by
  induction l generalizing a with
  | nil => rfl
  | cons b l' ih =>
    simp only [adjPairs, List.length_cons, ih]

/-- The node-id list of the built CFG is duplicate-free. -/
theorem cfg_ids_nodup (js : List Nat) (hpw : js.Pairwise (· < ·)) :
    ((NodeId.entry :: js.map NodeId.line) ++ [NodeId.exit]).Nodup := by
  rw [List.cons_append]
  refine List.nodup_cons.mpr ⟨?_, ?_⟩
  · simp [List.mem_append, List.mem_map]
  · refine List.Nodup.append ?_ (List.nodup_singleton _) ?_
    · refine List.Nodup.map ?_ (hpw.imp (fun h => Nat.ne_of_lt h))
      intro a b hab
      injection hab
    · intro x hx hx2
      rw [List.mem_singleton] at hx2
      subst hx2
      simp [List.mem_map] at hx

/-- `edgePairs` over an appended edge. -/
theorem edgePairs_append (es : List FlowEdge) (ed : FlowEdge) :
    edgePairs (es ++ [ed]) = edgePairs es ++ [(ed.source, ed.target)] := by
  unfold edgePairs
  rw [List.map_append]
  rfl

/-- One loop iteration of `_build_function_cfg` preserves the loop
invariant, advancing the line index. -/
theorem processLine_inv (file : String) (startLine i : Nat) (l : String)
    (st : CfgState) (h : CfgInv i st) :
    CfgInv (i + 1) (processLine file startLine i l st) := by
  obtain ⟨⟨js, hpw, hbound, hids⟩, ⟨pre, hpre⟩, hpairs, htypes⟩ := h
  by_cases hs : skipLine (strip l) = true
  · simp only [processLine]
    rw [if_pos hs]
    exact ⟨⟨js, hpw, fun j hj => Nat.lt_succ_of_lt (hbound j hj), hids⟩,
      ⟨pre, hpre⟩, hpairs, htypes⟩
  · have hcur : st.current ≠ NodeId.line i := by
      have hmem : st.current ∈ st.nodes.map Prod.fst := by
        rw [hpre]
        exact List.mem_append_right _ (List.mem_singleton_self _)
      rw [hids] at hmem
      rcases List.mem_cons.mp hmem with h1 | h2
      · rw [h1]
        intro hx
        exact NodeId.noConfusion hx
      · obtain ⟨j, hj, hji⟩ := List.mem_map.mp h2
        intro hx
        rw [← hji] at hx
        have hj_eq : j = i := by injection hx
        rw [hj_eq] at hj
        exact Nat.lt_irrefl i (hbound i hj)
    simp only [processLine]
    rw [if_neg hs, if_pos hcur]
    refine ⟨⟨js ++ [i], ?_, ?_, ?_⟩, ⟨st.nodes.map Prod.fst, ?_⟩, ?_, ?_⟩
    · refine List.pairwise_append.mpr ⟨hpw, List.pairwise_singleton _ _, ?_⟩
      intro a ha b hb
      rw [List.mem_singleton] at hb
      subst hb
      exact hbound a ha
    · intro j hj
      rcases List.mem_append.mp hj with h1 | h2
      · exact Nat.lt_succ_of_lt (hbound j h1)
      · rw [List.mem_singleton] at h2
        subst h2
        exact Nat.lt_succ_self _
    · simp only [List.map_append, List.map_cons, List.map_nil, hids]
      rfl
    · simp only [List.map_append, List.map_cons, List.map_nil]
    · simp only [edgePairs_append, List.map_append, List.map_cons, List.map_nil,
        hpairs, hpre]
      rw [List.append_assoc]
      exact (adjPairs_append_pair pre st.current (NodeId.line i)).symm
    · intro p hp
      rcases List.mem_append.mp hp with h1 | h2
      · exact htypes p h1
      · rw [List.mem_singleton] at h2
        subst h2
        refine ⟨fun hpe => absurd hpe (fun hx => NodeId.noConfusion hx), fun _ => ?_⟩
        exact ⟨classify_line_ne_entry _, classify_line_ne_exit _⟩

/-- The whole line loop preserves the invariant (for some final index). -/
theorem cfg_lines_inv (file : String) (startLine : Nat) :
    ∀ (lines : List String) (i : Nat) (st : CfgState), CfgInv i st →
      ∃ k, CfgInv k (cfg_lines file startLine i lines st) := by
  intro lines
  induction lines with
  | nil => exact fun i st h => ⟨i, h⟩
  | cons l rest ih =>
    intro i st h
    rw [cfg_lines]
    exact ih (i + 1) _ (processLine_inv file startLine i l st h)

/-- In any state satisfying the loop invariant's shape, `current_node_id`
is never the exit id. -/
theorem cfg_current_ne_exit (st : CfgState) (js : List Nat) (pre : List NodeId)
    (hids : st.nodes.map Prod.fst = NodeId.entry :: js.map NodeId.line)
    (hpre : st.nodes.map Prod.fst = pre ++ [st.current]) :
    st.current ≠ NodeId.exit := by
  have hmem : st.current ∈ st.nodes.map Prod.fst := by
    rw [hpre]
    exact List.mem_append_right _ (List.mem_singleton_self _)
  rw [hids] at hmem
  rcases List.mem_cons.mp hmem with h1 | h2
  · rw [h1]
    intro hx
    exact NodeId.noConfusion hx
  · obtain ⟨j, _, hji⟩ := List.mem_map.mp h2
    rw [← hji]
    intro hx
    exact NodeId.noConfusion hx

/-- Structure of every CFG built by `_build_function_cfg`: the node keys
are `entry`, strictly increasing line ids, then `exit`; the edges are
exactly the consecutive pairs of that key list; ENTRY-typed nodes are
exactly the entry key and EXIT-typed nodes exactly the exit key. -/
theorem build_function_cfg_shape (name file : String) (s e : Nat)
    (src : List String) :
    ∃ js : List Nat, js.Pairwise (· < ·)
    ∧ (build_function_cfg name file s e src).nodes.map Prod.fst
        = (NodeId.entry :: js.map NodeId.line) ++ [NodeId.exit]
    ∧ edgePairs (build_function_cfg name file s e src).edges
        = adjPairs ((build_function_cfg name file s e src).nodes.map Prod.fst)
    ∧ ∀ p ∈ (build_function_cfg name file s e src).nodes,
        (p.2.node_type = FlowNodeType.ENTRY ↔ p.1 = NodeId.entry)
        ∧ (p.2.node_type = FlowNodeType.EXIT ↔ p.1 = NodeId.exit) := by
  have h0 : CfgInv 0
      { nodes := [(NodeId.entry,
          { id := NodeId.entry, node_type := FlowNodeType.ENTRY,
            label := "Entry: " ++ name, source_line := some s,
            source_file := some file })],
        edges := [], current := NodeId.entry } := by
    refine ⟨⟨[], List.Pairwise.nil, fun j hj => absurd hj (List.not_mem_nil j), rfl⟩,
      ⟨[], rfl⟩, rfl, ?_⟩
    intro p hp
    rw [List.mem_singleton] at hp
    subst hp
    exact ⟨fun _ => rfl, fun hne => absurd rfl hne⟩
  obtain ⟨k, hinv⟩ := cfg_lines_inv file s src 0 _ h0
  obtain ⟨⟨js, hpw, hbound, hids⟩, ⟨pre, hpre⟩, hpairs, htypes⟩ := hinv
  have hcur := cfg_current_ne_exit _ js pre hids hpre
  refine ⟨js, hpw, ?_, ?_, ?_⟩
  · simp only [build_function_cfg, List.map_append, List.map_cons, List.map_nil, hids]
  · simp only [build_function_cfg]
    rw [if_pos hcur]
    simp only [edgePairs_append, List.map_append, List.map_cons, List.map_nil,
      hpairs, hpre]
    rw [List.append_assoc]
    exact (adjPairs_append_pair pre _ NodeId.exit).symm
  · simp only [build_function_cfg]
    intro p hp
    rcases List.mem_append.mp hp with h1 | h2
    · have ht := htypes p h1
      have hp_ne_exit : p.1 ≠ NodeId.exit := by
        have hm : p.1 ∈ (cfg_lines file s 0 src _).nodes.map Prod.fst :=
          List.mem_map_of_mem Prod.fst h1
        rw [hids] at hm
        rcases List.mem_cons.mp hm with hA | hB
        · rw [hA]
          intro hx
          exact NodeId.noConfusion hx
        · obtain ⟨j, _, hji⟩ := List.mem_map.mp hB
          rw [← hji]
          intro hx
          exact NodeId.noConfusion hx
      constructor
      · constructor
        · intro hT
          by_cases hpe : p.1 = NodeId.entry
          · exact hpe
          · exact absurd hT (ht.2 hpe).1
        · exact ht.1
      · constructor
        · intro hT
          by_cases hpe : p.1 = NodeId.entry
          · rw [ht.1 hpe] at hT
            exact absurd hT (fun hx => FlowNodeType.noConfusion hx)
          · exact absurd hT (ht.2 hpe).2
        · intro hx
          exact absurd hx hp_ne_exit
    · rw [List.mem_singleton] at h2
      subst h2
      refine ⟨⟨fun hx => FlowNodeType.noConfusion hx, fun hx => NodeId.noConfusion hx⟩,
        ⟨fun _ => rfl, fun _ => rfl⟩⟩

/-- Counting elements whose projection equals `x` is counting `x` among
the projections. -/
theorem countP_proj_eq_count {α β : Type} [DecidableEq β] (f : α → β)
    (l : List α) (x : β) :
    l.countP (fun a => f a == x) = (l.map f).count x := by
  induction l with
  | nil => rfl
  | cons a l ih =>
    simp only [List.countP_cons, List.map_cons, List.count_cons, ih]

/-! ## Claim theorems -/

/-- C1: for every function body (including an empty one), the built
`FunctionFlow` contains exactly one ENTRY-typed and exactly one EXIT-typed
node; ENTRY-typed (resp. EXIT-typed) nodes are exactly those keyed by the
entry (resp. exit) id; and no edge whatsoever — in particular no control
edge — has the ENTRY node as target or the EXIT node as source. -/
theorem c1_unique_entry_exit (name file : String) (s e : Nat)
    (src : List String) :
    ((build_function_cfg name file s e src).nodes.countP
        (fun p => p.2.node_type == FlowNodeType.ENTRY)) = 1
  ∧ ((build_function_cfg name file s e src).nodes.countP
        (fun p => p.2.node_type == FlowNodeType.EXIT)) = 1
  ∧ ((build_function_cfg name file s e src).nodes.all
        (fun p => (p.2.node_type == FlowNodeType.ENTRY) == (p.1 == NodeId.entry))) = true
  ∧ ((build_function_cfg name file s e src).nodes.all
        (fun p => (p.2.node_type == FlowNodeType.EXIT) == (p.1 == NodeId.exit))) = true
  ∧ ((build_function_cfg name file s e src).edges.all
        (fun ed => !(ed.target == NodeId.entry))) = true
  ∧ ((build_function_cfg name file s e src).edges.all
        (fun ed => !(ed.source == NodeId.exit))) = true := by
  obtain ⟨js, hpw, hids, hpairs, htypes⟩ := build_function_cfg_shape name file s e src
  have hnodup : ((build_function_cfg name file s e src).nodes.map Prod.fst).Nodup := by
    rw [hids]
    exact cfg_ids_nodup js hpw
  have hcount_entry :
      ((build_function_cfg name file s e src).nodes.map Prod.fst).count NodeId.entry = 1 := by
    refine List.count_eq_one_of_mem hnodup ?_
    rw [hids, List.cons_append]
    exact List.mem_cons_self _ _
  have hcount_exit :
      ((build_function_cfg name file s e src).nodes.map Prod.fst).count NodeId.exit = 1 := by
    refine List.count_eq_one_of_mem hnodup ?_
    rw [hids]
    exact List.mem_append_right _ (List.mem_singleton_self _)
  refine ⟨?_, ?_, ?_, ?_, ?_, ?_⟩
  · rw [List.countP_congr (fun p hp => ?_), countP_proj_eq_count Prod.fst _ NodeId.entry,
      hcount_entry]
    simp only [beq_iff_eq]
    exact (htypes p hp).1
  · rw [List.countP_congr (fun p hp => ?_), countP_proj_eq_count Prod.fst _ NodeId.exit,
      hcount_exit]
    simp only [beq_iff_eq]
    exact (htypes p hp).2
  · rw [List.all_eq_true]
    intro p hp
    have h := (htypes p hp).1
    simp only [beq_iff_eq]
    exact decide_eq_decide.mpr h
  · rw [List.all_eq_true]
    intro p hp
    have h := (htypes p hp).2
    simp only [beq_iff_eq]
    exact decide_eq_decide.mpr h
  · rw [List.all_eq_true]
    intro ed hed
    have hpair : (ed.source, ed.target) ∈
        edgePairs (build_function_cfg name file s e src).edges :=
      List.mem_map_of_mem _ hed
    rw [hpairs] at hpair
    have hmem : ed.target ∈ ((build_function_cfg name file s e src).nodes.map Prod.fst).tail := by
      rw [← adjPairs_map_snd]
      exact List.mem_map_of_mem Prod.snd hpair
    rw [hids, List.cons_append, List.tail_cons] at hmem
    have hne : ed.target ≠ NodeId.entry := by
      rcases List.mem_append.mp hmem with h1 | h2
      · obtain ⟨j, _, hji⟩ := List.mem_map.mp h1
        rw [← hji]
        intro hx
        exact NodeId.noConfusion hx
      · rw [List.mem_singleton] at h2
        rw [h2]
        intro hx
        exact NodeId.noConfusion hx
    simp [hne]
  · rw [List.all_eq_true]
    intro ed hed
    have hpair : (ed.source, ed.target) ∈
        edgePairs (build_function_cfg name file s e src).edges :=
      List.mem_map_of_mem _ hed
    rw [hpairs] at hpair
    have hmem : ed.source ∈
        ((build_function_cfg name file s e src).nodes.map Prod.fst).dropLast := by
      rw [← adjPairs_map_fst]
      exact List.mem_map_of_mem Prod.fst hpair
    rw [hids, List.dropLast_concat] at hmem
    have hne : ed.source ≠ NodeId.exit := by
      rcases List.mem_cons.mp hmem with h1 | h2
      · rw [h1]
        intro hx
        exact NodeId.noConfusion hx
      · obtain ⟨j, _, hji⟩ := List.mem_map.mp h2
        rw [← hji]
        intro hx
        exact NodeId.noConfusion hx
    simp [hne]

/-- C2: for every `FunctionFlow`, the metrics computed by
`_compute_complexity_metrics` satisfy: `cyclomatic_complexity` is the number
of CONDITION-or-LOOP nodes plus one (hence at least one), `async_complexity`
is the number of AWAIT_POINT-or-SPAWN_POINT nodes,
`error_handling_complexity` is the number of ERROR_HANDLER nodes, and
`total_nodes`/`total_edges` are the sizes of the node map and edge list. -/
theorem c2_complexity_metrics (ff : FunctionFlow) :
    (compute_complexity_metrics ff).cyclomatic_complexity
      = ff.nodes.countP (fun p => p.2.node_type == .CONDITION || p.2.node_type == .LOOP) + 1
  ∧ 1 ≤ (compute_complexity_metrics ff).cyclomatic_complexity
  ∧ (compute_complexity_metrics ff).async_complexity
      = ff.nodes.countP (fun p => p.2.node_type == .AWAIT_POINT || p.2.node_type == .SPAWN_POINT)
  ∧ (compute_complexity_metrics ff).error_handling_complexity
      = ff.nodes.countP (fun p => p.2.node_type == .ERROR_HANDLER)
  ∧ (compute_complexity_metrics ff).total_nodes = ff.nodes.length
  ∧ (compute_complexity_metrics ff).total_edges = ff.edges.length := by
  refine ⟨?_, ?_, ?_, ?_, rfl, rfl⟩
  · unfold compute_complexity_metrics
    simp only [contains_pair_eq]
  · exact Nat.le_add_left 1 _
  · unfold compute_complexity_metrics
    simp only [contains_pair_eq]
  · rfl

/-- C3: `_classify_async_pattern` is a pure function of the await-point and
spawn-point lists whose result depends only on the two counts and agrees
with the rule table of spec §4.6 (`spec_async_pattern`). -/
theorem c3_async_pattern_table (await_points spawn_points : List NodeId) :
    classify_async_pattern await_points spawn_points
      = spec_async_pattern spawn_points.length await_points.length := by
  unfold classify_async_pattern spec_async_pattern
  rcases spawn_points with _ | ⟨s, sp⟩ <;> rcases await_points with _ | ⟨a, aw⟩
  · simp
  · by_cases h : 3 < aw.length + 1
    · simp [h]
    · have h3 : aw.length + 1 ≤ 3 := Nat.not_lt.mp h
      simp [h, h3, Nat.le_add_left 1 aw.length]
  · simp
  · simp

/-- `build_dep_graph_aux` only emits keys drawn from the analyzed crate
list and only adjacency members passing the `names` membership filter. -/
theorem build_dep_graph_aux_closed (names : List String)
    (l : List (String × CrateInfo)) (h : ∀ c ∈ l, names.contains c.1 = true) :
    ((build_dep_graph_aux names l).all (fun p =>
        names.contains p.1 && p.2.all (fun d => names.contains d))) = true := by
  induction l with
  | nil => rfl
  | cons c rest ih =>
    rw [build_dep_graph_aux]
    split
    · exact ih (fun x hx => h x (List.mem_cons_of_mem _ hx))
    · rw [List.all_cons, Bool.and_eq_true]
      refine ⟨?_, ih (fun x hx => h x (List.mem_cons_of_mem _ hx))⟩
      rw [Bool.and_eq_true]
      refine ⟨h c (List.mem_cons_self _ _), ?_⟩
      exact List.all_eq_true.mpr (fun d hd => List.of_mem_filter hd)

/-- C5: every name appearing in the built dependency graph — every key and
every member of every adjacency list — is the name of a module of the
analyzed workspace (`self.crates`); external dependencies never appear. -/
theorem c5_graph_nodes_in_workspace (crates : List (String × CrateInfo)) :
    ((build_dependency_graph crates).all (fun p =>
        (crates.map Prod.fst).contains p.1
          && p.2.all (fun d => (crates.map Prod.fst).contains d))) = true := by
  apply build_dep_graph_aux_closed
  intro c hc
  simp only [List.contains, List.elem_eq_mem, decide_eq_true_eq]
  exact List.mem_map_of_mem _ hc

/-- The workspace side of `partition_deps` collects exactly the names of
the path-local entries, in declaration order. -/
theorem partition_deps_ws (l : List (String × DepSpec)) :
    (partition_deps l).1 = (l.filter (fun p => is_workspace_dep p.2)).map Prod.fst := by
  induction l with
  | nil => rfl
  | cons p rest ih =>
    rcases p with ⟨dn, d⟩
    cases d with
    | table t =>
      by_cases ht : t.hasPath <;>
        simp [partition_deps, ht, is_workspace_dep, List.filter_cons, ih]
    | plain v =>
      simp [partition_deps, is_workspace_dep, List.filter_cons, ih]

/-- The external side of `partition_deps` collects exactly the names of the
non-path entries, in declaration order. -/
theorem partition_deps_ext (l : List (String × DepSpec)) :
    (partition_deps l).2.1 = (l.filter (fun p => !is_workspace_dep p.2)).map Prod.fst := by
  induction l with
  | nil => rfl
  | cons p rest ih =>
    rcases p with ⟨dn, d⟩
    cases d with
    | table t =>
      by_cases ht : t.hasPath <;>
        simp [partition_deps, ht, is_workspace_dep, List.filter_cons, ih]
    | plain v =>
      simp [partition_deps, is_workspace_dep, List.filter_cons, ih]

/-- C4: for every analyzed module manifest, the path-local dependency
entries land in `workspace_dependencies`, every other declared entry lands
in `external_dependencies`, the two are disjoint, and together they carry
exactly the declared dependency names (`dev-dependencies` are parsed into a
separate field and excluded). -/
theorem c4_dependency_partition (wm : Option WorkspaceManifest)
    (m : CrateManifest) (h : (m.dependencies.map Prod.fst).Nodup) :
    (analyze_crate_manifest wm m).workspace_dependencies
      = (m.dependencies.filter (fun p => is_workspace_dep p.2)).map Prod.fst
  ∧ (analyze_crate_manifest wm m).external_dependencies
      = (m.dependencies.filter (fun p => !is_workspace_dep p.2)).map Prod.fst
  ∧ List.Disjoint (analyze_crate_manifest wm m).workspace_dependencies
      (analyze_crate_manifest wm m).external_dependencies
  ∧ ((analyze_crate_manifest wm m).workspace_dependencies
      ++ (analyze_crate_manifest wm m).external_dependencies).Perm
      (m.dependencies.map Prod.fst) := by
  have hws : (analyze_crate_manifest wm m).workspace_dependencies
      = (partition_deps m.dependencies).1 := rfl
  have hext : (analyze_crate_manifest wm m).external_dependencies
      = (partition_deps m.dependencies).2.1 := rfl
  have hperm : ((analyze_crate_manifest wm m).workspace_dependencies
      ++ (analyze_crate_manifest wm m).external_dependencies).Perm
      (m.dependencies.map Prod.fst) := by
    rw [hws, hext, partition_deps_ws, partition_deps_ext, ← List.map_append]
    exact (List.filter_append_perm _ m.dependencies).map Prod.fst
  refine ⟨hws.trans (partition_deps_ws m.dependencies),
          hext.trans (partition_deps_ext m.dependencies), ?_, hperm⟩
  exact List.disjoint_of_nodup_append (hperm.nodup_iff.mpr h)

/-- Witness for C4 at the spec §8 example manifest
`{"a": path-local, "b": "1.0"}`. -/
theorem c4_dependency_partition_witness :
    (analyze_crate_manifest none c4_manifest).workspace_dependencies
      = (c4_manifest.dependencies.filter (fun p => is_workspace_dep p.2)).map Prod.fst
  ∧ (analyze_crate_manifest none c4_manifest).external_dependencies
      = (c4_manifest.dependencies.filter (fun p => !is_workspace_dep p.2)).map Prod.fst
  ∧ List.Disjoint (analyze_crate_manifest none c4_manifest).workspace_dependencies
      (analyze_crate_manifest none c4_manifest).external_dependencies
  ∧ ((analyze_crate_manifest none c4_manifest).workspace_dependencies
      ++ (analyze_crate_manifest none c4_manifest).external_dependencies).Perm
      (c4_manifest.dependencies.map Prod.fst) :=
  c4_dependency_partition none c4_manifest (by decide)

/-- C8: evaluation of `_categorize_crate` at a module whose name matches no
keyword but whose description contains "storage": the code returns
"general", although its own docstring ("Categorize crate based on name and
description") and the spec promise "storage" — the computed `desc_lower` is
never consulted. -/
theorem c8_description_ignored :
    categorize_crate "toka-widgets" "Persistent storage backend" = "general"
  ∧ containsSub (strLower "Persistent storage backend") "storage" = true := by
  exact ⟨by decide, by decide⟩

/-- C9: a missing workspace-root manifest aborts the whole dependency run
(`_load_workspace_manifest` raises and `analyze_workspace` does not catch),
while a missing member manifest is tolerated: that member contributes no
`CrateInfo` and the run continues with the remaining members. -/
theorem c9_missing_manifest_handling (wm : WorkspaceManifest)
    (members : List (Option CrateManifest)) :
    except_is_ok (analyze_workspace_deps
      { root_manifest := none, member_manifests := members }) = false
  ∧ except_is_ok (analyze_workspace_deps
      { root_manifest := some wm, member_manifests := members }) = true
  ∧ analyze_workspace_deps
      { root_manifest := some wm, member_manifests := none :: members }
    = analyze_workspace_deps
      { root_manifest := some wm, member_manifests := members } := by
  refine ⟨rfl, rfl, ?_⟩
  simp [analyze_workspace_deps, load_workspace_manifest, List.filterMap_cons,
    analyze_single_crate]

/-- Every span produced by the extraction loop whose brace scan finds no
balancing close keeps `end_line = start_line`. -/
theorem extract_functions_aux_end_line (allLines : List String) (fp : String) :
    ∀ (rest : List String) (i : Nat),
      ((extract_functions_aux allLines fp i rest).all (fun f =>
        (scan_braces (allLines.drop (f.start_line - 1)) (f.start_line - 1) 0).isSome
        || (f.end_line == f.start_line))) = true := by
  intro rest
  induction rest with
  | nil => intro i; rfl
  | cons line rest ih =>
    intro i
    rw [extract_functions_aux]
    cases hm : match_fn_sig line with
    | none =>
      simp only [hm]
      exact ih (i + 1)
    | some fname =>
      simp only [hm, List.all_cons, Bool.and_eq_true]
      refine ⟨?_, ih (i + 1)⟩
      cases hs : scan_braces (allLines.drop i) i 0 with
      | none => simp [hs, Nat.add_sub_cancel]
      | some e => simp [hs, Nat.add_sub_cancel]

/-- C6 counterexample: in the two-line file `c6_file` the signature
`fn foo() \x7b` is never brace-balanced (`scan_braces` returns `none`), yet
the extracted span gets `end_line = 1 = start_line`, not the file's last
line `2`: the claimed default to the last line is false. -/
theorem c6_counterexample :
    scan_braces c6_file 0 0 = none
  ∧ (extract_functions c6_file "demo.rs").map (fun f => (f.name, f.start_line, f.end_line))
      = [("foo", 1, 1)]
  ∧ c6_file.length = 2
  ∧ ¬ (((extract_functions c6_file "demo.rs").all
        (fun f => f.end_line == c6_file.length)) = true) := by
  refine ⟨by decide, by decide, rfl, by decide⟩

/-- C6 (amended): when no balancing closing brace is found before the end
of the file, the extraction still succeeds and the `FunctionSpan` keeps
`end_line = start_line` (the signature's own line) — the loop's untouched
initialization — rather than the file's last line. -/
theorem c6_unbalanced_end_line (lines : List String) (fp : String) :
    ((extract_functions lines fp).all (fun f =>
        (scan_braces (lines.drop (f.start_line - 1)) (f.start_line - 1) 0).isSome
        || (f.end_line == f.start_line))) = true :=
  extract_functions_aux_end_line lines fp lines 0

/-- C7 counterexample: two `FunctionFlow` values equal up to the insertion
order of their node maps (and with identical edge lists and scalar fields)
export different interchange objects — `export_function_json` iterates the
node map in raw insertion order, not in a sorted order. -/
theorem c7_counterexample :
    c7_flow1.nodes.Perm c7_flow2.nodes
  ∧ c7_flow1.edges = c7_flow2.edges
  ∧ c7_flow1.name = c7_flow2.name
  ∧ c7_flow1.file_path = c7_flow2.file_path
  ∧ c7_flow1.start_line = c7_flow2.start_line
  ∧ c7_flow1.end_line = c7_flow2.end_line
  ∧ c7_flow1.complexity_metrics = c7_flow2.complexity_metrics
  ∧ export_function_json c7_flow1 ≠ export_function_json c7_flow2 := by
  refine ⟨by decide, rfl, rfl, rfl, rfl, rfl, rfl, by decide⟩

/-- C7 (amended): `export_function_json` is a pure transform of the
in-memory model — so exporting the same `FunctionFlow` value twice yields
the same object — but it emits nodes and edges in the model's stored
(map-insertion/list) order, not an explicitly sorted order, so the export
only preserves the stored order rather than being insertion-order
independent. -/
theorem c7_export_insertion_order (ff : FunctionFlow) :
    (export_function_json ff).nodes.map (fun n => n.id) = ff.nodes.map Prod.fst
  ∧ (export_function_json ff).edges.map (fun e => (e.source, e.target)) = edgePairs ff.edges
  ∧ (export_function_json ff).nodes.length = ff.nodes.length
  ∧ (export_function_json ff).edges.length = ff.edges.length := by
  refine ⟨?_, ?_, ?_, ?_⟩ <;> simp [export_function_json, edgePairs]

/-- C10: every CFG built by `_build_function_cfg` is a single linear
chain — the edge pairs are exactly the consecutive pairs of the
duplicate-free node-key list, the number of edges is the number of nodes
minus one, every node except the entry node is the target of exactly one
edge, and every node except the exit node is the source of exactly one
edge (so CONDITION and LOOP nodes never introduce branching or back
edges). -/
theorem c10_linear_chain (name file : String) (s e : Nat) (src : List String) :
    (build_function_cfg name file s e src).edges.length + 1
      = (build_function_cfg name file s e src).nodes.length
  ∧ edgePairs (build_function_cfg name file s e src).edges
      = adjPairs ((build_function_cfg name file s e src).nodes.map Prod.fst)
  ∧ ((build_function_cfg name file s e src).nodes.map Prod.fst).Nodup
  ∧ ((build_function_cfg name file s e src).nodes.all (fun p =>
        (p.1 == NodeId.entry)
        || ((build_function_cfg name file s e src).edges.countP
              (fun ed => ed.target == p.1) == 1))) = true
  ∧ ((build_function_cfg name file s e src).nodes.all (fun p =>
        (p.1 == NodeId.exit)
        || ((build_function_cfg name file s e src).edges.countP
              (fun ed => ed.source == p.1) == 1))) = true := by
  obtain ⟨js, hpw, hids, hpairs, htypes⟩ := build_function_cfg_shape name file s e src
  have hnodup : ((build_function_cfg name file s e src).nodes.map Prod.fst).Nodup := by
    rw [hids]
    exact cfg_ids_nodup js hpw
  have hmap_target : (build_function_cfg name file s e src).edges.map (fun ed => ed.target)
      = ((build_function_cfg name file s e src).nodes.map Prod.fst).tail := by
    rw [← adjPairs_map_snd, ← hpairs]
    unfold edgePairs
    rw [List.map_map]
    rfl
  have hmap_source : (build_function_cfg name file s e src).edges.map (fun ed => ed.source)
      = ((build_function_cfg name file s e src).nodes.map Prod.fst).dropLast := by
    rw [← adjPairs_map_fst, ← hpairs]
    unfold edgePairs
    rw [List.map_map]
    rfl
  refine ⟨?_, hpairs, hnodup, ?_, ?_⟩
  · have hlen : (build_function_cfg name file s e src).edges.length
        = (edgePairs (build_function_cfg name file s e src).edges).length :=
      (List.length_map _ _).symm
    rw [hlen, hpairs, ← List.length_map (build_function_cfg name file s e src).nodes Prod.fst,
      hids, List.cons_append, adjPairs_length_cons, List.length_cons]
  · rw [List.all_eq_true]
    intro p hp
    by_cases hpe : p.1 = NodeId.entry
    · simp [hpe]
    · have hmemid : p.1 ∈ (build_function_cfg name file s e src).nodes.map Prod.fst :=
        List.mem_map_of_mem Prod.fst hp
      have hmemtail : p.1 ∈ ((build_function_cfg name file s e src).nodes.map Prod.fst).tail := by
        rw [hids, List.cons_append] at hmemid ⊢
        rw [List.tail_cons]
        rcases List.mem_cons.mp hmemid with h1 | h2
        · exact absurd h1 hpe
        · exact h2
      have htail_nodup : (((build_function_cfg name file s e src).nodes.map Prod.fst).tail).Nodup := by
        rw [hids, List.cons_append, List.tail_cons]
        have := hnodup
        rw [hids, List.cons_append] at this
        exact this.of_cons
      have hcnt : (build_function_cfg name file s e src).edges.countP
          (fun ed => ed.target == p.1) = 1 := by
        rw [countP_proj_eq_count (fun ed : FlowEdge => ed.target) _ p.1, hmap_target]
        exact List.count_eq_one_of_mem htail_nodup hmemtail
      simp [hcnt]
  · rw [List.all_eq_true]
    intro p hp
    by_cases hpe : p.1 = NodeId.exit
    · simp [hpe]
    · have hmemid : p.1 ∈ (build_function_cfg name file s e src).nodes.map Prod.fst :=
        List.mem_map_of_mem Prod.fst hp
      have hmemdl : p.1 ∈ ((build_function_cfg name file s e src).nodes.map Prod.fst).dropLast := by
        rw [hids, List.dropLast_concat]
        rw [hids] at hmemid
        rcases List.mem_append.mp hmemid with h1 | h2
        · exact h1
        · rw [List.mem_singleton] at h2
          exact absurd h2 hpe
      have hdl_nodup : (((build_function_cfg name file s e src).nodes.map Prod.fst).dropLast).Nodup := by
        rw [hids, List.dropLast_concat]
        have := hnodup
        rw [hids] at this
        exact (List.nodup_append.mp this).1
      have hcnt : (build_function_cfg name file s e src).edges.countP
          (fun ed => ed.source == p.1) = 1 := by
        rw [countP_proj_eq_count (fun ed : FlowEdge => ed.source) _ p.1, hmap_source]
        exact List.count_eq_one_of_mem hdl_nodup hmemdl
      simp [hcnt]

end Toka
